import Mathlib

/-!
Verification of the alldebrid-ts status synchronization and polling
subsystem: the magnet status normalization, the typed error taxonomy of
the transport client, and the watch polling loop, embedded shallowly
from the TypeScript source.
-/

set_option maxRecDepth 4096

deriving instance DecidableEq for Except

/-- Magnet record: a snapshot of one server-side download job. Fields the
subsystem reads are explicit; the lifecycle status is an open string and
may be absent on a raw value. -/
structure Magnet where
  id : Nat
  status : Option String
  filename : Option String
  size : Option Nat
  downloaded : Option Nat
deriving DecidableEq

/-- Shape of the magnets field of a status response as the transport may
deliver it: absent, a single bare object (the documented server
inconsistency), or an array. -/
inductive MagnetsField
  | missing
  | bare (m : Magnet)
  | arr (ms : List Magnet)
deriving DecidableEq

/-- Status response body (the unwrapped data of the envelope): the magnets
field, the live mode counter and fullsync fields, and a list of remaining
fields preserved by the object spread. -/
structure StatusResp where
  magnets : MagnetsField
  counter : Option Nat
  fullsync : Option Bool
  rest : List (String × String)
deriving DecidableEq

/-- Typed error taxonomy of the SDK, one constructor per error class in
errors.ts: AuthenticationError, LinkError, MagnetError, the generic base
AllDebridError, and NetworkError with its optional HTTP status code. -/
inductive AdError
  | authenticationError (code msg : String)
  | linkError (code msg : String)
  | magnetError (code msg : String)
  | allDebridError (code msg : String)
  | networkError (msg : String) (statusCode : Option Nat)
deriving DecidableEq

/-- The name property of the error class of a value, mirroring the name
field set by each constructor in errors.ts. -/
def errName : AdError → String
  | .authenticationError _ _ => "AuthenticationError"
  | .linkError _ _ => "LinkError"
  | .magnetError _ _ => "MagnetError"
  | .allDebridError _ _ => "AllDebridError"
  | .networkError _ _ => "NetworkError"

/-- Prefix test on strings, the semantics of the startsWith calls in
errors.ts, phrased over the character lists so that it evaluates by
structural recursion. -/
def strStartsWith (s p : String) : Bool := p.data.isPrefixOf s.data

/-- Embedding of createTypedError from errors.ts: dispatch on the code
prefix to an error class. -/
def createTypedError (code msg : String) : AdError :=
  if strStartsWith code "AUTH_" then .authenticationError code msg
  else if strStartsWith code "LINK_" || strStartsWith code "REDIRECTOR_"
      || strStartsWith code "STREAM_" || strStartsWith code "DELAYED_" then
    .linkError code msg
  else if strStartsWith code "MAGNET_" then .magnetError code msg
  else .allDebridError code msg

/-- A value caught by the catch block of AllDebridClient.get or post:
either an already typed error thrown by the envelope handling (it carries
no HTTP status field), or a transport failure with an optional HTTP
status and an optional message. -/
inductive Caught
  | typed (e : AdError)
  | transport (status : Option Nat) (message : Option String)
deriving DecidableEq

/-- Message fallback of the NetworkError wrap: error.message when truthy,
else the fixed fallback text. -/
def msgOr : Option String → String
  | some s => if s = "" then "Network error occurred" else s
  | none => "Network error occurred"

/-- Embedding of the catch block of AllDebridClient.get and post: HTTP
401, 403 and 429 map through createTypedError with fixed codes; an
already typed error is rethrown unchanged (its status field is absent so
the HTTP checks do not fire); anything else is wrapped in NetworkError
carrying the HTTP status when available. -/
def handleCatch : Caught → AdError
  | .typed e => e
  | .transport s m =>
    if s == some 401 then
      createTypedError "AUTH_BAD_APIKEY" "Invalid API key or unauthorized access"
    else if s == some 403 then createTypedError "AUTH_BLOCKED" "Access forbidden"
    else if s == some 429 then createTypedError "RATE_LIMITED" "Too many requests"
    else .networkError (msgOr m) s

/-- Outcome of one transport round as seen by AllDebridClient.get or
post: either an envelope with its status string, optional data and
optional error pair, or a failure before an envelope was obtained. -/
inductive TransportResult
  | envelope (status : String) (data : Option StatusResp)
      (err : Option (String × String))
  | failure (status : Option Nat) (message : Option String)
deriving DecidableEq

/-- Embedding of the request body of AllDebridClient.get and post: on an
error envelope with an error object, throw the typed error (which the
catch block rethrows unchanged); otherwise return the data; a transport
failure goes through the catch block mapping. -/
def clientGet : TransportResult → Except AdError (Option StatusResp)
  | .envelope st data err =>
    if st == "error" then
      match err with
      | some (c, m) => .error (handleCatch (.typed (createTypedError c m)))
      | none => .ok data
    else .ok data
  | .failure s m => .error (handleCatch (.transport s m))

/-- Embedding of MagnetResource.status normalization (magnet.ts lines
341 to 354): given the data returned by the transport, when the magnets
field is present and not an array it is wrapped into a one element
array by an object spread; otherwise the data is returned as received,
including a null or undefined data value. -/
def magnetStatus (data : Option StatusResp) : Option StatusResp :=
  match data with
  | none => none
  | some d =>
    match d.magnets with
    | .bare m => some { d with magnets := .arr [m] }
    | _ => some d

/-- Number of jobs in the magnets field of a response, a bare object
counting as one. -/
def magCount : Option StatusResp → Nat
  | none => 0
  | some d =>
    match d.magnets with
    | .missing => 0
    | .bare _ => 1
    | .arr ms => ms.length

/-- Whether the magnets field of a response is a bare non array object. -/
def isBareMagnets : Option StatusResp → Bool
  | some d => match d.magnets with | .bare _ => true | _ => false
  | none => false

/-- First magnet of a response as watch reads it: the index zero access
on the magnets field yields a value only when that field is an array
with a head; a bare object or an absent field yields nothing. -/
def firstMagnet : Option StatusResp → Option Magnet
  | none => none
  | some r =>
    match r.magnets with
    | .arr (m :: _) => some m
    | _ => none

/-- Counter field of a response when the response and the field are both
present, as the optional chaining in watch reads it. -/
def respCounter (st : Option StatusResp) : Option Nat :=
  st.bind fun r => r.counter

/-- Termination test of the watch loop: the first magnet exists and its
status field equals the stop status string. -/
def stopHit (st : Option StatusResp) (stopOn : String) : Bool :=
  match firstMagnet st with
  | some m => m.status == some stopOn
  | none => false

/-- Arguments carried by one statusLive call issued from watch. -/
structure LiveArgs where
  session : Nat
  counter : Nat
deriving DecidableEq

/-- Observable events of one watch run: a standard mode poll, a live
mode poll with its arguments, an onUpdate delivery, and the interval
suspension. -/
inductive WEvent
  | pollStd
  | pollLive (args : LiveArgs)
  | update (r : Option StatusResp)
  | sleep
deriving DecidableEq

/-- Final outcome of one watch run: success with the returned response,
the synthesized timeout failure carrying the stop status and attempt
bound from its message, a propagated poll error, or fuel exhaustion (a
model artifact standing for a still running unbounded loop). -/
inductive WOutcome
  | success (r : Option StatusResp)
  | timeoutErr (stopOn : String) (maxAttempts : Nat)
  | raised (e : AdError)
  | fuelOut
deriving DecidableEq

/-- Embedding of the while loop of MagnetResource.watch (magnet.ts lines
542 to 570). The stub polls gives the result of the selected status
operation for each call index; attempt counts prior calls; counter is
the live mode counter threaded across iterations; fuel bounds the number
of modelled iterations and only that. Each iteration checks the loop
condition, polls, updates the counter from the response when in live
mode and the field is present, delivers the response to onUpdate, stops
with success on a status match, and otherwise sleeps for the interval
before the next condition check; leaving the loop throws the timeout. -/
def watchLoop (polls : Nat → Except AdError (Option StatusResp))
    (maxAttempts : Nat) (stopOn : String) (useLive : Bool) (session : Nat) :
    Nat → Nat → Nat → List WEvent × WOutcome
  | 0, attempt, _ =>
    if maxAttempts == 0 || attempt < maxAttempts then ([], .fuelOut)
    else ([], .timeoutErr stopOn maxAttempts)
  | fuel + 1, attempt, counter =>
    if maxAttempts == 0 || attempt < maxAttempts then
      let pollEv : WEvent :=
        if useLive then .pollLive ⟨session, counter⟩ else .pollStd
      match polls attempt with
      | .error e => ([pollEv], .raised e)
      | .ok st =>
        let nextCounter := if useLive then (respCounter st).getD counter else counter
        if stopHit st stopOn then
          ([pollEv, .update st], .success st)
        else
          let rest := watchLoop polls maxAttempts stopOn useLive session
            fuel (attempt + 1) nextCounter
          (pollEv :: .update st :: .sleep :: rest.1, rest.2)
    else ([], .timeoutErr stopOn maxAttempts)

/-- Entry point of watch: attempt and counter both start at zero; the
session is the value drawn once before the loop. -/
def watch (polls : Nat → Except AdError (Option StatusResp))
    (maxAttempts : Nat) (stopOn : String) (useLive : Bool) (session : Nat)
    (fuel : Nat) : List WEvent × WOutcome :=
  watchLoop polls maxAttempts stopOn useLive session fuel 0 0

/-- Whether an event is a poll of either mode. -/
def isPoll : WEvent → Bool
  | .pollStd => true
  | .pollLive _ => true
  | _ => false

/-- Whether an event is an onUpdate delivery. -/
def isUpdate : WEvent → Bool
  | .update _ => true
  | _ => false

/-- Whether an event is the interval suspension. -/
def isSleep : WEvent → Bool
  | .sleep => true
  | _ => false

/-- Number of polls in a trace. -/
def pollCount (evs : List WEvent) : Nat := evs.countP fun e => isPoll e

/-- Number of onUpdate deliveries in a trace. -/
def updateCount (evs : List WEvent) : Nat := evs.countP fun e => isUpdate e

/-- Number of interval suspensions in a trace. -/
def sleepCount (evs : List WEvent) : Nat := evs.countP fun e => isSleep e

/-- Arguments of the live mode polls of a trace, in order. -/
def liveCalls : List WEvent → List LiveArgs
  | [] => []
  | .pollLive a :: es => a :: liveCalls es
  | _ :: es => liveCalls es

/-- Counter of the response of a poll result, when the poll succeeded and
the response carries the field. -/
def okCounter : Except AdError (Option StatusResp) → Option Nat
  | .ok st => respCounter st
  | .error _ => none

/-- Whether a poll result is a successful response that does not hit the
stop status. -/
def isOkNonStop (e : Except AdError (Option StatusResp)) (stopOn : String) : Bool :=
  match e with
  | .ok st => !(stopHit st stopOn)
  | .error _ => false

/-! Helper lemmas about the watch loop. -/

/-- A true stop test exposes the shape of the response: present, with an
array magnets field whose head carries the stop status. -/
lemma stopHit_shape {st : Option StatusResp} {s : String}
    (h : stopHit st s = true) :
    ∃ resp m tl, st = some resp ∧ resp.magnets = .arr (m :: tl) ∧
      m.status = some s := by
  cases st with
  | none => simp [stopHit, firstMagnet] at h
  | some resp =>
    cases hm : resp.magnets with
    | missing => simp [stopHit, firstMagnet, hm] at h
    | bare m => simp [stopHit, firstMagnet, hm] at h
    | arr ms =>
      cases ms with
      | nil => simp [stopHit, firstMagnet, hm] at h
      | cons m tl =>
        simp only [stopHit, firstMagnet, hm, beq_iff_eq] at h
        exact ⟨resp, m, tl, rfl, hm, h⟩

/-- Every successful watch outcome comes from a response that passed the
stop test. -/
lemma watchLoop_success_stopHit (polls : Nat → Except AdError (Option StatusResp))
    (maxA : Nat) (stopOn : String) (useLive : Bool) (session : Nat) :
    ∀ fuel attempt counter r,
      (watchLoop polls maxA stopOn useLive session fuel attempt counter).2 =
        .success r →
      stopHit r stopOn = true := by
  intro fuel
  induction fuel with
  | zero =>
    intro attempt counter r h
    simp only [watchLoop] at h
    split at h <;> simp at h
  | succ f ih =>
    intro attempt counter r h
    simp only [watchLoop] at h
    split at h
    · cases hp : polls attempt with
      | error e => rw [hp] at h; simp at h
      | ok st =>
        rw [hp] at h
        simp only at h
        split at h
        · rename_i hs
          simp only [Prod.snd] at h
          cases h
          exact hs
        · exact ih (attempt + 1) _ r h
    · simp at h

/-- A poll event of either mode counts as a poll. -/
lemma isPoll_pollEv (b : Bool) (a : LiveArgs) :
    isPoll (if b then WEvent.pollLive a else .pollStd) = true := by
  cases b <;> rfl

/-- Counting a full non terminating iteration prepended to a trace: one
poll, one onUpdate delivery and one suspension are added. -/
lemma counts_cons3 (b : Bool) (a : LiveArgs) (st : Option StatusResp)
    (l : List WEvent) :
    pollCount ((if b then WEvent.pollLive a else .pollStd) ::
        WEvent.update st :: WEvent.sleep :: l) = pollCount l + 1 ∧
    updateCount ((if b then WEvent.pollLive a else .pollStd) ::
        WEvent.update st :: WEvent.sleep :: l) = updateCount l + 1 ∧
    sleepCount ((if b then WEvent.pollLive a else .pollStd) ::
        WEvent.update st :: WEvent.sleep :: l) = sleepCount l + 1 := by
  cases b <;>
    simp [pollCount, updateCount, sleepCount, List.countP_cons, isPoll,
      isUpdate, isSleep]

/-- Counting the two event trace of an iteration that stops with success:
one poll and one onUpdate delivery, no suspension. -/
lemma counts_cons2 (b : Bool) (a : LiveArgs) (st : Option StatusResp) :
    pollCount [if b then WEvent.pollLive a else .pollStd, WEvent.update st] = 1 ∧
    updateCount [if b then WEvent.pollLive a else .pollStd, WEvent.update st] = 1 ∧
    sleepCount [if b then WEvent.pollLive a else .pollStd, WEvent.update st] = 0 := by
  cases b <;>
    simp [pollCount, updateCount, sleepCount, List.countP_cons, isPoll,
      isUpdate, isSleep]

/-- Counting the one event trace of an iteration whose poll raised: one
poll, no onUpdate delivery, no suspension. -/
lemma counts_cons1 (b : Bool) (a : LiveArgs) :
    pollCount [if b then WEvent.pollLive a else .pollStd] = 1 ∧
    updateCount [if b then WEvent.pollLive a else .pollStd] = 0 ∧
    sleepCount [if b then WEvent.pollLive a else .pollStd] = 0 := by
  cases b <;>
    simp [pollCount, updateCount, sleepCount, List.countP_cons, isPoll,
      isUpdate, isSleep]

/-- Shape of a run whose polled responses, from the current attempt up to
a nonzero attempt bound, all succeed without hitting the stop status: the
run times out after polling once per remaining attempt, with one onUpdate
delivery and one interval suspension per poll. -/
lemma watchLoop_nonstop_counts (polls : Nat → Except AdError (Option StatusResp))
    (maxA : Nat) (stopOn : String) (useLive : Bool) (session : Nat)
    (hmax : maxA ≠ 0) :
    ∀ fuel attempt counter,
      attempt ≤ maxA → maxA - attempt ≤ fuel →
      (∀ i, attempt ≤ i → i < maxA → isOkNonStop (polls i) stopOn = true) →
      (watchLoop polls maxA stopOn useLive session fuel attempt counter).2 =
        .timeoutErr stopOn maxA ∧
      pollCount (watchLoop polls maxA stopOn useLive session fuel attempt counter).1 =
        maxA - attempt ∧
      updateCount (watchLoop polls maxA stopOn useLive session fuel attempt counter).1 =
        maxA - attempt ∧
      sleepCount (watchLoop polls maxA stopOn useLive session fuel attempt counter).1 =
        maxA - attempt := by
  intro fuel
  induction fuel with
  | zero =>
    intro attempt counter h1 h2 _
    have heq : attempt = maxA := by omega
    subst heq
    simp only [watchLoop]
    rw [if_neg (by simp [hmax])]
    simp [pollCount, updateCount, sleepCount]
  | succ f ih =>
    intro attempt counter h1 h2 hok
    by_cases hlt : attempt < maxA
    · simp only [watchLoop]
      rw [if_pos (by simp [hlt])]
      have hi := hok attempt le_rfl hlt
      cases hp : polls attempt with
      | error e => rw [hp] at hi; simp [isOkNonStop] at hi
      | ok st =>
        rw [hp] at hi
        simp only [isOkNonStop, Bool.not_eq_true'] at hi
        simp only [hi, Bool.false_eq_true, if_false]
        obtain ⟨o1, c1, c2, c3⟩ :=
          ih (attempt + 1) (if useLive then (respCounter st).getD counter else counter)
            (by omega) (by omega) (fun i hi1 hi2 => hok i (by omega) hi2)
        refine ⟨o1, ?_, ?_, ?_⟩
        · rw [(counts_cons3 useLive ⟨session, counter⟩ st _).1, c1]; omega
        · rw [(counts_cons3 useLive ⟨session, counter⟩ st _).2.1, c2]; omega
        · rw [(counts_cons3 useLive ⟨session, counter⟩ st _).2.2, c3]; omega
    · have heq : attempt = maxA := by omega
      subst heq
      simp only [watchLoop]
      rw [if_neg (by simp [hmax])]
      simp [pollCount, updateCount, sleepCount]

/-- Shape of a run whose first n polled responses succeed without
hitting the stop status and whose poll number n (zero indexed from the
current attempt) hits it, the attempt bound permitting that poll: the
run returns that response as success after n plus one polls, with one
onUpdate delivery per poll including the last and one suspension per
poll except the last. -/
lemma watchLoop_success_counts (polls : Nat → Except AdError (Option StatusResp))
    (maxA : Nat) (stopOn : String) (useLive : Bool) (session : Nat)
    (stN : Option StatusResp) :
    ∀ n attempt counter fuel,
      (maxA = 0 ∨ attempt + n < maxA) → n + 1 ≤ fuel →
      (∀ i, attempt ≤ i → i < attempt + n → isOkNonStop (polls i) stopOn = true) →
      polls (attempt + n) = .ok stN → stopHit stN stopOn = true →
      (watchLoop polls maxA stopOn useLive session fuel attempt counter).2 =
        .success stN ∧
      pollCount (watchLoop polls maxA stopOn useLive session fuel attempt counter).1 =
        n + 1 ∧
      updateCount (watchLoop polls maxA stopOn useLive session fuel attempt counter).1 =
        n + 1 ∧
      sleepCount (watchLoop polls maxA stopOn useLive session fuel attempt counter).1 =
        n := by
  intro n
  induction n with
  | zero =>
    intro attempt counter fuel hm hf hpre hN hs
    obtain ⟨f, rfl⟩ : ∃ f, fuel = f + 1 := ⟨fuel - 1, by omega⟩
    simp only [watchLoop]
    rw [if_pos (by rcases hm with h | h <;> simp [h]; omega)]
    rw [Nat.add_zero] at hN
    rw [hN]
    simp only [hs, if_true]
    refine ⟨trivial, ?_, ?_, ?_⟩
    · exact (counts_cons2 useLive ⟨session, counter⟩ stN).1
    · exact (counts_cons2 useLive ⟨session, counter⟩ stN).2.1
    · exact (counts_cons2 useLive ⟨session, counter⟩ stN).2.2
  | succ n ih =>
    intro attempt counter fuel hm hf hpre hN hs
    obtain ⟨f, rfl⟩ : ∃ f, fuel = f + 1 := ⟨fuel - 1, by omega⟩
    simp only [watchLoop]
    rw [if_pos (by rcases hm with h | h <;> simp [h]; omega)]
    have hi := hpre attempt le_rfl (by omega)
    cases hp : polls attempt with
    | error e => rw [hp] at hi; simp [isOkNonStop] at hi
    | ok st =>
      rw [hp] at hi
      simp only [isOkNonStop, Bool.not_eq_true'] at hi
      simp only [hi, Bool.false_eq_true, if_false]
      obtain ⟨o1, c1, c2, c3⟩ :=
        ih (attempt + 1) (if useLive then (respCounter st).getD counter else counter)
          f (by omega) (by omega) (fun i hi1 hi2 => hpre i (by omega) (by omega))
          (by rw [← hN]; ring_nf) hs
      refine ⟨o1, ?_, ?_, ?_⟩
      · rw [(counts_cons3 useLive ⟨session, counter⟩ st _).1, c1]
      · rw [(counts_cons3 useLive ⟨session, counter⟩ st _).2.1, c2]
      · rw [(counts_cons3 useLive ⟨session, counter⟩ st _).2.2, c3]

/-- Shape of a run whose first n polled responses succeed without
hitting the stop status and whose poll number n raises an error, the
attempt bound permitting that poll: the raised error propagates as the
outcome, the failing poll is the last event, no onUpdate delivery and no
suspension happen for it, and no further poll is attempted. -/
lemma watchLoop_error_counts (polls : Nat → Except AdError (Option StatusResp))
    (maxA : Nat) (stopOn : String) (useLive : Bool) (session : Nat)
    (e : AdError) :
    ∀ n attempt counter fuel,
      (maxA = 0 ∨ attempt + n < maxA) → n + 1 ≤ fuel →
      (∀ i, attempt ≤ i → i < attempt + n → isOkNonStop (polls i) stopOn = true) →
      polls (attempt + n) = .error e →
      (watchLoop polls maxA stopOn useLive session fuel attempt counter).2 =
        .raised e ∧
      pollCount (watchLoop polls maxA stopOn useLive session fuel attempt counter).1 =
        n + 1 ∧
      updateCount (watchLoop polls maxA stopOn useLive session fuel attempt counter).1 =
        n ∧
      sleepCount (watchLoop polls maxA stopOn useLive session fuel attempt counter).1 =
        n := by
  intro n
  induction n with
  | zero =>
    intro attempt counter fuel hm hf hpre hN
    obtain ⟨f, rfl⟩ : ∃ f, fuel = f + 1 := ⟨fuel - 1, by omega⟩
    simp only [watchLoop]
    rw [if_pos (by rcases hm with h | h <;> simp [h]; omega)]
    rw [Nat.add_zero] at hN
    rw [hN]
    refine ⟨rfl, ?_, ?_, ?_⟩
    · exact (counts_cons1 useLive ⟨session, counter⟩).1
    · exact (counts_cons1 useLive ⟨session, counter⟩).2.1
    · exact (counts_cons1 useLive ⟨session, counter⟩).2.2
  | succ n ih =>
    intro attempt counter fuel hm hf hpre hN
    obtain ⟨f, rfl⟩ : ∃ f, fuel = f + 1 := ⟨fuel - 1, by omega⟩
    simp only [watchLoop]
    rw [if_pos (by rcases hm with h | h <;> simp [h]; omega)]
    have hi := hpre attempt le_rfl (by omega)
    cases hp : polls attempt with
    | error e2 => rw [hp] at hi; simp [isOkNonStop] at hi
    | ok st =>
      rw [hp] at hi
      simp only [isOkNonStop, Bool.not_eq_true'] at hi
      simp only [hi, Bool.false_eq_true, if_false]
      obtain ⟨o1, c1, c2, c3⟩ :=
        ih (attempt + 1) (if useLive then (respCounter st).getD counter else counter)
          f (by omega) (by omega) (fun i hi1 hi2 => hpre i (by omega) (by omega))
          (by rw [← hN]; ring_nf)
      refine ⟨o1, ?_, ?_, ?_⟩
      · rw [(counts_cons3 useLive ⟨session, counter⟩ st _).1, c1]
      · rw [(counts_cons3 useLive ⟨session, counter⟩ st _).2.1, c2]
      · rw [(counts_cons3 useLive ⟨session, counter⟩ st _).2.2, c3]

/-- Discipline of the live mode call arguments of a run: every live call
carries the session fixed for the run; the first call carries exactly the
counter passed in; and when every response along the run carries a
counter field, each later call carries exactly the counter field of the
response of the immediately preceding call. -/
lemma watchLoop_liveCalls (polls : Nat → Except AdError (Option StatusResp))
    (maxA : Nat) (stopOn : String) (session : Nat) :
    ∀ fuel attempt counter L,
      L = liveCalls (watchLoop polls maxA stopOn true session fuel attempt counter).1 →
      (∀ a ∈ L, a.session = session) ∧
      (∀ h0 : 0 < L.length, (L.get ⟨0, h0⟩).counter = counter) ∧
      ((∀ j, j + 1 < L.length → (okCounter (polls (attempt + j))).isSome = true) →
        ∀ j, (hj : j + 1 < L.length) →
          (L.get ⟨j + 1, hj⟩).counter = (okCounter (polls (attempt + j))).getD 0) := by
  intro fuel
  induction fuel with
  | zero =>
    intro attempt counter L hL
    simp only [watchLoop] at hL
    split at hL <;> simp [liveCalls] at hL <;> simp [hL]
  | succ f ih =>
    intro attempt counter L hL
    simp only [watchLoop] at hL
    split at hL
    · cases hp : polls attempt with
      | error e =>
        rw [hp] at hL
        simp only [if_true, liveCalls] at hL
        subst hL
        refine ⟨?_, ?_, ?_⟩
        · intro a ha; simp [liveCalls] at ha; simp [ha]
        · intro h0; simp [liveCalls]
        · intro _ j hj; simp [liveCalls] at hj
      | ok st =>
        rw [hp] at hL
        simp only at hL
        by_cases hs : stopHit st stopOn = true
        · rw [if_pos hs] at hL
          simp only [if_true, liveCalls] at hL
          subst hL
          refine ⟨?_, ?_, ?_⟩
          · intro a ha; simp [liveCalls] at ha; simp [ha]
          · intro h0; simp [liveCalls]
          · intro _ j hj; simp [liveCalls] at hj
        · rw [if_neg hs] at hL
          simp only [if_true, liveCalls] at hL
          obtain ⟨ih1, ih2, ih3⟩ :=
            ih (attempt + 1) ((respCounter st).getD counter) _ rfl
          subst hL
          refine ⟨?_, ?_, ?_⟩
          · intro a ha
            rcases List.mem_cons.mp ha with h | h
            · simp [h]
            · exact ih1 a h
          · intro h0; simp
          · intro hdef j hj
            simp only [List.length_cons] at hj
            cases j with
            | zero =>
              have h0 : 0 < (liveCalls (watchLoop polls maxA stopOn true session f
                  (attempt + 1) ((respCounter st).getD counter)).1).length := by
                simpa using hj
              have hv := ih2 h0
              have hdef0 := hdef 0 (by simpa using hj)
              rw [Nat.add_zero, hp] at hdef0
              simp only [okCounter] at hdef0
              obtain ⟨c, hc⟩ := Option.isSome_iff_exists.mp hdef0
              have : (respCounter st).getD counter = c := by simp [hc]
              simp only [List.get_cons_succ]
              rw [hv, this, Nat.add_zero, hp]
              simp [okCounter, hc]
            | succ j2 =>
              have hj2 : j2 + 1 < (liveCalls (watchLoop polls maxA stopOn true session f
                  (attempt + 1) ((respCounter st).getD counter)).1).length := by
                simpa using hj
              have hdef2 : ∀ j, j + 1 < (liveCalls (watchLoop polls maxA stopOn true
                  session f (attempt + 1) ((respCounter st).getD counter)).1).length →
                  (okCounter (polls (attempt + 1 + j))).isSome = true := by
                intro j hjl
                have := hdef (j + 1) (by simp; omega)
                rwa [show attempt + (j + 1) = attempt + 1 + j by omega] at this
              have := ih3 hdef2 j2 hj2
              simp only [List.get_cons_succ]
              rw [this, show attempt + 1 + j2 = attempt + (j2 + 1) by omega]
    · simp [liveCalls] at hL
      simp [hL]

/-! Concrete fixtures for witnesses and counterexamples. -/

/-- Example magnet still downloading. -/
def exDown : Magnet := ⟨1, some "Downloading", none, some 1000, some 500⟩

/-- Example magnet that reached the Ready status. -/
def exReady : Magnet := ⟨1, some "Ready", none, some 1000, some 1000⟩

/-- Example response whose first magnet is still downloading. -/
def exRespDown : StatusResp := ⟨.arr [exDown], some 5, some false, []⟩

/-- Example response whose first magnet is Ready. -/
def exRespReady : StatusResp := ⟨.arr [exReady], some 6, some false, []⟩

/-- Example response with a bare magnets object and other fields set. -/
def exRespBare : StatusResp := ⟨.bare exDown, some 3, some true, [("k", "v")]⟩

/-- Example response whose magnets array has two elements. -/
def exResp2 : StatusResp := ⟨.arr [exDown, exReady], none, none, []⟩

/-- Stub returning a downloading response once, then a Ready response. -/
def exPolls : Nat → Except AdError (Option StatusResp) :=
  fun i => .ok (some (List.getD [exRespDown, exRespReady] i exRespReady))

/-- Stub never reaching the Ready status. -/
def exPollsDown : Nat → Except AdError (Option StatusResp) :=
  fun _ => .ok (some exRespDown)

/-- Stub raising a network error on its second call. -/
def exPollsErr : Nat → Except AdError (Option StatusResp) :=
  fun i => if i = 1 then .error (.networkError "boom" (some 500))
    else .ok (some exRespDown)

/-- Stub for live mode: never at the stop status, counter field of call i
equal to ten plus i. -/
def exPollsLive : Nat → Except AdError (Option StatusResp) :=
  fun i => .ok (some ⟨.arr [exDown], some (10 + i), some (i == 0), []⟩)

/-! Claim theorems. -/

/-- C1: for a stub Status Resource whose responses have a first magnet
with a non target status on each of the first N minus one polls and with
status equal to the target stop status on poll N, watch resolves exactly
on poll N (the attempt budget permitting), returns that Nth response,
and the onUpdate observer is invoked exactly N times, once per poll
including the terminal one. -/
theorem watch_resolves_on_nth_poll
    (polls : Nat → Except AdError (Option StatusResp)) (maxA : Nat)
    (stopOn : String) (useLive : Bool) (session N fuel : Nat)
    (stN : Option StatusResp)
    (hN : 1 ≤ N) (hbound : maxA = 0 ∨ N ≤ maxA) (hfuel : N ≤ fuel)
    (hpre : ∀ i, i < N - 1 → isOkNonStop (polls i) stopOn = true)
    (hstop : polls (N - 1) = .ok stN) (hhit : stopHit stN stopOn = true) :
    (watch polls maxA stopOn useLive session fuel).2 = .success stN ∧
    pollCount (watch polls maxA stopOn useLive session fuel).1 = N ∧
    updateCount (watch polls maxA stopOn useLive session fuel).1 = N := by
  obtain ⟨o, c1, c2, c3⟩ :=
    watchLoop_success_counts polls maxA stopOn useLive session stN
      (N - 1) 0 0 fuel (by omega) (by omega)
      (fun i h1 h2 => hpre i (by omega))
      (by simpa using hstop) hhit
  simp only [watch]
  exact ⟨o, by omega, by omega⟩

/-- C1 witness: a stub that is Downloading on the first call and Ready
on the second makes watch succeed on the second poll with two onUpdate
deliveries. -/
theorem watch_resolves_on_nth_poll_witness :
    (watch exPolls 0 "Ready" false 0 5).2 = .success (some exRespReady) ∧
    pollCount (watch exPolls 0 "Ready" false 0 5).1 = 2 ∧
    updateCount (watch exPolls 0 "Ready" false 0 5).1 = 2 :=
  watch_resolves_on_nth_poll exPolls 0 "Ready" false 0 2 5 (some exRespReady)
    (by decide) (Or.inl rfl) (by decide) (by decide) (by decide) (by decide)

/-- C2: for every positive attempt bound k and every stub Status
Resource whose responses never have a first magnet at the stop status,
watch performs exactly k polls, not k minus one or k plus one, and then
fails with the synthesized timeout outcome, which is by construction a
different kind of value from any error raised by a poll (the resource
operations raise values of the typed error taxonomy, while the timeout
is a separate outcome synthesized by the loop alone). -/
theorem watch_timeout_after_exact_attempts
    (polls : Nat → Except AdError (Option StatusResp)) (k : Nat)
    (stopOn : String) (useLive : Bool) (session fuel : Nat)
    (hk : k ≠ 0) (hfuel : k ≤ fuel)
    (hok : ∀ i, i < k → isOkNonStop (polls i) stopOn = true) :
    (watch polls k stopOn useLive session fuel).2 = .timeoutErr stopOn k ∧
    pollCount (watch polls k stopOn useLive session fuel).1 = k ∧
    (∀ e : AdError, (watch polls k stopOn useLive session fuel).2 ≠ .raised e) := by
  obtain ⟨o, c1, c2, c3⟩ :=
    watchLoop_nonstop_counts polls k stopOn useLive session hk fuel 0 0
      (by omega) (by omega) (fun i h1 h2 => hok i h2)
  simp only [watch]
  refine ⟨o, by omega, ?_⟩
  intro e h
  rw [o] at h
  exact WOutcome.noConfusion h

/-- C2 witness: with an attempt bound of three and a stub that never
reaches Ready, watch times out after exactly three polls. -/
theorem watch_timeout_after_exact_attempts_witness :
    (watch exPollsDown 3 "Ready" false 0 9).2 = .timeoutErr "Ready" 3 ∧
    pollCount (watch exPollsDown 3 "Ready" false 0 9).1 = 3 ∧
    (∀ e : AdError, (watch exPollsDown 3 "Ready" false 0 9).2 ≠ .raised e) :=
  watch_timeout_after_exact_attempts exPollsDown 3 "Ready" false 0 9
    (by decide) (by decide) (by decide)

/-- C3: when the poll with index k raises a typed error after k polls
that did not hit the stop status, watch propagates exactly that error as
its outcome and aborts immediately: onUpdate is invoked only for the k
earlier polls, no suspension follows the failing poll, and no further
poll is attempted. -/
theorem watch_propagates_poll_error
    (polls : Nat → Except AdError (Option StatusResp)) (maxA : Nat)
    (stopOn : String) (useLive : Bool) (session k fuel : Nat) (e : AdError)
    (hbound : maxA = 0 ∨ k < maxA) (hfuel : k + 1 ≤ fuel)
    (hpre : ∀ i, i < k → isOkNonStop (polls i) stopOn = true)
    (herr : polls k = .error e) :
    (watch polls maxA stopOn useLive session fuel).2 = .raised e ∧
    pollCount (watch polls maxA stopOn useLive session fuel).1 = k + 1 ∧
    updateCount (watch polls maxA stopOn useLive session fuel).1 = k ∧
    sleepCount (watch polls maxA stopOn useLive session fuel).1 = k := by
  obtain ⟨o, c1, c2, c3⟩ :=
    watchLoop_error_counts polls maxA stopOn useLive session e k 0 0 fuel
      (by omega) (by omega) (fun i h1 h2 => hpre i (by omega))
      (by simpa using herr)
  simp only [watch]
  exact ⟨o, c1, c2, c3⟩

/-- C3 witness: a stub raising a network error on its second call makes
watch abort with that error after two polls and one onUpdate delivery. -/
theorem watch_propagates_poll_error_witness :
    (watch exPollsErr 0 "Ready" false 0 9).2 =
      .raised (.networkError "boom" (some 500)) ∧
    pollCount (watch exPollsErr 0 "Ready" false 0 9).1 = 2 ∧
    updateCount (watch exPollsErr 0 "Ready" false 0 9).1 = 1 ∧
    sleepCount (watch exPollsErr 0 "Ready" false 0 9).1 = 1 :=
  watch_propagates_poll_error exPollsErr 0 "Ready" false 0 1 9
    (.networkError "boom" (some 500)) (Or.inl rfl) (by decide) (by decide)
    (by decide)

/-- C8 counterexample: with an attempt bound of one and a stub that
never reaches Ready, the run performs one poll and then one interval
suspension before failing with the timeout, so the suspension does not
occur only before iterations that actually run: a suspension follows the
final failed check as well, contradicting the claim that watch fails at
that point without first suspending. -/
theorem watch_sleeps_before_timeout_cex :
    (watch exPollsDown 1 "Ready" false 0 5).2 = .timeoutErr "Ready" 1 ∧
    pollCount (watch exPollsDown 1 "Ready" false 0 5).1 = 1 ∧
    sleepCount (watch exPollsDown 1 "Ready" false 0 5).1 = 1 ∧
    (watch exPollsDown 1 "Ready" false 0 5).1 =
      [.pollStd, .update (some exRespDown), .sleep] := by
  decide

/-- C8 amended: in each iteration of watch, after the response is
delivered to onUpdate and the first job status differs from the target,
the loop always suspends for the interval — including the final
iteration once the nonzero attempt bound is reached — and the timeout
failure is raised only at the top of the next iteration, after that last
suspension: a timed out run with k polls performs exactly k suspensions,
one after every poll. -/
theorem watch_timeout_sleeps_each_iteration
    (polls : Nat → Except AdError (Option StatusResp)) (k : Nat)
    (stopOn : String) (useLive : Bool) (session fuel : Nat)
    (hk : k ≠ 0) (hfuel : k ≤ fuel)
    (hok : ∀ i, i < k → isOkNonStop (polls i) stopOn = true) :
    sleepCount (watch polls k stopOn useLive session fuel).1 = k ∧
    updateCount (watch polls k stopOn useLive session fuel).1 = k ∧
    (watch polls k stopOn useLive session fuel).2 = .timeoutErr stopOn k := by
  obtain ⟨o, c1, c2, c3⟩ :=
    watchLoop_nonstop_counts polls k stopOn useLive session hk fuel 0 0
      (by omega) (by omega) (fun i h1 h2 => hok i h2)
  simp only [watch]
  exact ⟨by omega, by omega, o⟩

/-- C8 witness: with an attempt bound of two, the timed out run contains
two suspensions, one per poll, including one after the final poll. -/
theorem watch_timeout_sleeps_each_iteration_witness :
    sleepCount (watch exPollsDown 2 "Ready" false 0 9).1 = 2 ∧
    updateCount (watch exPollsDown 2 "Ready" false 0 9).1 = 2 ∧
    (watch exPollsDown 2 "Ready" false 0 9).2 = .timeoutErr "Ready" 2 :=
  watch_timeout_sleeps_each_iteration exPollsDown 2 "Ready" false 0 9
    (by decide) (by decide) (by decide)

/-- C9: whenever watch returns normally, the returned value is a present
response whose magnets collection is a non empty array whose first
element has status equal to the effective stop status; in particular a
response with an empty, missing or bare magnets collection — such as an
empty live mode delta — never terminates the loop successfully. -/
theorem watch_success_first_magnet_matches
    (polls : Nat → Except AdError (Option StatusResp)) (maxA : Nat)
    (stopOn : String) (useLive : Bool) (session fuel : Nat)
    (r : Option StatusResp)
    (h : (watch polls maxA stopOn useLive session fuel).2 = .success r) :
    ∃ resp m tl, r = some resp ∧ resp.magnets = .arr (m :: tl) ∧
      m.status = some stopOn :=
  stopHit_shape
    (watchLoop_success_stopHit polls maxA stopOn useLive session fuel 0 0 r h)

/-- C9 witness: the successful run of the two step stub returns the
Ready response, whose first array element carries the Ready status. -/
theorem watch_success_first_magnet_matches_witness :
    (watch exPolls 0 "Ready" false 0 5).2 = .success (some exRespReady) ∧
    (∃ resp m tl, (some exRespReady : Option StatusResp) = some resp ∧
      resp.magnets = .arr (m :: tl) ∧ m.status = some "Ready") :=
  ⟨by decide,
   watch_success_first_magnet_matches exPolls 0 "Ready" false 0 5
     (some exRespReady) (by decide)⟩

/-- C5: in every live mode execution of watch, one session value is
fixed before the first poll and every statusLive call of the run carries
exactly that session; the first call carries counter zero; and provided
each response of the run carries a counter field, every later call
carries exactly the counter field of the response of the immediately
preceding call, regardless of whether that response had any magnets, so
no call uses a counter value from two calls prior. -/
theorem watch_live_session_counter_discipline
    (polls : Nat → Except AdError (Option StatusResp)) (maxA : Nat)
    (stopOn : String) (session fuel : Nat) (L : List LiveArgs)
    (hL : L = liveCalls (watch polls maxA stopOn true session fuel).1)
    (hdef : ∀ j, j + 1 < L.length → (okCounter (polls j)).isSome = true) :
    (∀ a ∈ L, a.session = session) ∧
    (∀ h0 : 0 < L.length, (L.get ⟨0, h0⟩).counter = 0) ∧
    (∀ j, (hj : j + 1 < L.length) →
      (L.get ⟨j + 1, hj⟩).counter = (okCounter (polls j)).getD 0) := by
  obtain ⟨h1, h2, h3⟩ :=
    watchLoop_liveCalls polls maxA stopOn session fuel 0 0 L
      (by simpa [watch] using hL)
  refine ⟨h1, h2, ?_⟩
  intro j hj
  have := h3 (by intro j2 hj2; simpa using hdef j2 hj2) j hj
  simpa using this

/-- C5 witness: a three poll live run with session seven and response
counters ten, eleven and twelve issues calls with counters zero, ten and
eleven. -/
theorem watch_live_session_counter_discipline_witness :
    liveCalls (watch exPollsLive 3 "Ready" true 7 9).1 =
      [⟨7, 0⟩, ⟨7, 10⟩, ⟨7, 11⟩] ∧
    (∀ a ∈ liveCalls (watch exPollsLive 3 "Ready" true 7 9).1, a.session = 7) ∧
    (∀ h0 : 0 < (liveCalls (watch exPollsLive 3 "Ready" true 7 9).1).length,
      ((liveCalls (watch exPollsLive 3 "Ready" true 7 9).1).get ⟨0, h0⟩).counter = 0) ∧
    (∀ j, (hj : j + 1 < (liveCalls (watch exPollsLive 3 "Ready" true 7 9).1).length) →
      ((liveCalls (watch exPollsLive 3 "Ready" true 7 9).1).get ⟨j + 1, hj⟩).counter =
        (okCounter (exPollsLive j)).getD 0) :=
  ⟨by decide,
   (watch_live_session_counter_discipline exPollsLive 3 "Ready" 7 9
     (liveCalls (watch exPollsLive 3 "Ready" true 7 9).1) rfl
     (by
       intro j hj
       have hlen :
           (liveCalls (watch exPollsLive 3 "Ready" true 7 9).1).length = 3 := by
         decide
       rw [hlen] at hj
       have hj2 : j < 2 := by omega
       interval_cases j <;> decide)).1,
   (watch_live_session_counter_discipline exPollsLive 3 "Ready" 7 9
     (liveCalls (watch exPollsLive 3 "Ready" true 7 9).1) rfl
     (by
       intro j hj
       have hlen :
           (liveCalls (watch exPollsLive 3 "Ready" true 7 9).1).length = 3 := by
         decide
       rw [hlen] at hj
       have hj2 : j < 2 := by omega
       interval_cases j <;> decide)).2.1,
   (watch_live_session_counter_discipline exPollsLive 3 "Ready" 7 9
     (liveCalls (watch exPollsLive 3 "Ready" true 7 9).1) rfl
     (by
       intro j hj
       have hlen :
           (liveCalls (watch exPollsLive 3 "Ready" true 7 9).1).length = 3 := by
         decide
       rw [hlen] at hj
       have hj2 : j < 2 := by omega
       interval_cases j <;> decide)).2.2⟩

/-- C4 counterexample: when the transport hands back a magnets array
with two elements, the getById normalization returns it unchanged, so
the result is not an array of zero or one element as the claim states
for every transport response. -/
theorem magnet_status_two_passthrough_cex :
    magnetStatus (some exResp2) = some exResp2 ∧
    magCount (magnetStatus (some exResp2)) = 2 := by
  decide

/-- C4 amended: for every id and every transport response carrying at
most one job (its magnets field absent, a bare object, or an array of at
most one element), the getById normalization returns a response whose
magnets collection is never a bare object and holds at most one element:
a bare object is detected and wrapped into a one element array, and a
zero element result is a normal value, not an error, that callers detect
by checking collection length. -/
theorem magnet_status_at_most_one (d : Option StatusResp)
    (h : magCount d ≤ 1) :
    isBareMagnets (magnetStatus d) = false ∧
    magCount (magnetStatus d) ≤ 1 ∧
    (∀ dd m, d = some dd → dd.magnets = .bare m →
      magnetStatus d = some { dd with magnets := .arr [m] }) := by
  cases d with
  | none => simp [magnetStatus, isBareMagnets, magCount]
  | some dd =>
    cases hm : dd.magnets with
    | missing =>
      refine ⟨by simp [magnetStatus, hm, isBareMagnets], ?_, ?_⟩
      · simp [magnetStatus, hm, magCount]
      · intro dd2 m hd hm2
        cases hd
        rw [hm] at hm2
        exact MagnetsField.noConfusion hm2
    | bare m0 =>
      refine ⟨by simp [magnetStatus, hm, isBareMagnets], ?_, ?_⟩
      · simp [magnetStatus, hm, magCount]
      · intro dd2 m hd hm2
        cases hd
        rw [hm] at hm2
        cases hm2
        simp [magnetStatus, hm]
    | arr ms =>
      refine ⟨by simp [magnetStatus, hm, isBareMagnets], ?_, ?_⟩
      · simpa [magnetStatus, hm, magCount] using h
      · intro dd2 m hd hm2
        cases hd
        rw [hm] at hm2
        exact MagnetsField.noConfusion hm2

/-- C4 witness: a bare object response with one job is wrapped into a
one element array. -/
theorem magnet_status_at_most_one_witness :
    magCount (some exRespBare) ≤ 1 ∧
    (isBareMagnets (magnetStatus (some exRespBare)) = false ∧
     magCount (magnetStatus (some exRespBare)) ≤ 1 ∧
     (∀ dd m, (some exRespBare : Option StatusResp) = some dd →
        dd.magnets = .bare m →
        magnetStatus (some exRespBare) = some { dd with magnets := .arr [m] })) :=
  ⟨by decide, magnet_status_at_most_one (some exRespBare) (by decide)⟩

/-- C7: the getById normalization satisfies the round trip property:
normalizing the response obtained by wrapping a bare magnets object into
a one element array gives the same result as normalizing the bare object
response directly; the normalization is idempotent; and an already array
shaped magnets collection is left unchanged. -/
theorem magnet_status_round_trip (d : StatusResp) (m : Magnet)
    (ms : List Magnet) :
    (d.magnets = .bare m →
      magnetStatus (some { d with magnets := .arr [m] }) =
        magnetStatus (some d)) ∧
    magnetStatus (magnetStatus (some d)) = magnetStatus (some d) ∧
    (d.magnets = .arr ms → magnetStatus (some d) = some d) := by
  refine ⟨?_, ?_, ?_⟩
  · intro hm
    simp [magnetStatus, hm]
  · cases hm : d.magnets <;> simp [magnetStatus, hm]
  · intro hm
    simp [magnetStatus, hm]

/-- C7 witness: round trip and idempotence instantiated on the concrete
bare object response. -/
theorem magnet_status_round_trip_witness :
    magnetStatus (some { exRespBare with magnets := .arr [exDown] }) =
      magnetStatus (some exRespBare) ∧
    magnetStatus (magnetStatus (some exRespBare)) =
      magnetStatus (some exRespBare) :=
  ⟨(magnet_status_round_trip exRespBare exDown []).1 (by decide),
   (magnet_status_round_trip exRespBare exDown []).2.1⟩

/-- C10: the normalization inside getById touches only the magnets
field: the counter, fullsync and remaining fields of the response are
returned unchanged, a null or undefined data value maps to itself, and
when the magnets field is absent or already an array the entire response
value is returned exactly as received. -/
theorem magnet_status_frame (d : StatusResp) :
    magnetStatus none = none ∧
    (∃ d2, magnetStatus (some d) = some d2 ∧ d2.counter = d.counter ∧
      d2.fullsync = d.fullsync ∧ d2.rest = d.rest) ∧
    (isBareMagnets (some d) = false → magnetStatus (some d) = some d) := by
  refine ⟨rfl, ?_, ?_⟩
  · cases hm : d.magnets with
    | missing => exact ⟨d, by simp [magnetStatus, hm]⟩
    | bare m => exact ⟨{ d with magnets := .arr [m] }, by simp [magnetStatus, hm]⟩
    | arr ms => exact ⟨d, by simp [magnetStatus, hm]⟩
  · intro hb
    cases hm : d.magnets with
    | missing => simp [magnetStatus, hm]
    | bare m => simp [isBareMagnets, hm] at hb
    | arr ms => simp [magnetStatus, hm]

/-- C10 witness: an already array shaped response passes through the
normalization exactly as received. -/
theorem magnet_status_frame_witness :
    isBareMagnets (some exRespDown) = false ∧
    magnetStatus (some exRespDown) = some exRespDown :=
  ⟨by decide, (magnet_status_frame exRespDown).2.2 (by decide)⟩

/-- C6 counterexample: HTTP 429 is mapped through createTypedError with
the code RATE_LIMITED, which matches no class prefix and therefore lands
in the generic base class — the same class used for generic domain
errors — so the rate limit mapping is not a category distinct from the
domain category as the claim states. -/
theorem rate_limit_not_distinct_cex :
    handleCatch (.transport (some 429) (some "x")) =
      .allDebridError "RATE_LIMITED" "Too many requests" ∧
    errName (handleCatch (.transport (some 429) (some "x"))) =
      errName (createTypedError "PIN_EXPIRED" "pin expired") := by
  decide

/-- C6 amended: an application level error code in the response envelope
is thrown as a typed error keyed by code prefix — an authentication
error for AUTH codes, a link error for LINK, REDIRECTOR, STREAM and
DELAYED codes, a magnet error for MAGNET codes, a generic base error
otherwise; HTTP 401 and 403 are mapped to typed authentication errors
and HTTP 429 to an error with code RATE_LIMITED carried by the generic
base class (distinct from the authentication and network categories, but
the same class as generic domain errors, distinguishable from them only
by its code); any other transport failure is thrown as a NetworkError
carrying the HTTP status code when available. -/
theorem client_error_mapping (code msg : String) (data : Option StatusResp)
    (mo : Option String) (s : Option Nat) :
    (strStartsWith code "AUTH_" = true →
      createTypedError code msg = .authenticationError code msg) ∧
    (strStartsWith code "AUTH_" = false →
      (strStartsWith code "LINK_" || strStartsWith code "REDIRECTOR_"
        || strStartsWith code "STREAM_" || strStartsWith code "DELAYED_") = true →
      createTypedError code msg = .linkError code msg) ∧
    (strStartsWith code "AUTH_" = false →
      (strStartsWith code "LINK_" || strStartsWith code "REDIRECTOR_"
        || strStartsWith code "STREAM_" || strStartsWith code "DELAYED_") = false →
      strStartsWith code "MAGNET_" = true →
      createTypedError code msg = .magnetError code msg) ∧
    (strStartsWith code "AUTH_" = false →
      (strStartsWith code "LINK_" || strStartsWith code "REDIRECTOR_"
        || strStartsWith code "STREAM_" || strStartsWith code "DELAYED_") = false →
      strStartsWith code "MAGNET_" = false →
      createTypedError code msg = .allDebridError code msg) ∧
    (clientGet (.envelope "error" data (some (code, msg))) =
      .error (createTypedError code msg)) ∧
    (handleCatch (.transport (some 401) mo) =
      .authenticationError "AUTH_BAD_APIKEY" "Invalid API key or unauthorized access") ∧
    (handleCatch (.transport (some 403) mo) =
      .authenticationError "AUTH_BLOCKED" "Access forbidden") ∧
    (handleCatch (.transport (some 429) mo) =
      .allDebridError "RATE_LIMITED" "Too many requests") ∧
    (s ≠ some 401 → s ≠ some 403 → s ≠ some 429 →
      handleCatch (.transport s mo) = .networkError (msgOr mo) s) := by
  refine ⟨?_, ?_, ?_, ?_, ?_, ?_, ?_, ?_, ?_⟩
  · intro h1; simp [createTypedError, h1]
  · intro h1 h2; simp [createTypedError, h1, h2]
  · intro h1 h2 h3; simp [createTypedError, h1, h2, h3]
  · intro h1 h2 h3; simp [createTypedError, h1, h2, h3]
  · simp [clientGet, handleCatch]
  · simp [handleCatch]; decide
  · simp [handleCatch]; decide
  · simp [handleCatch]; decide
  · intro h1 h2 h3
    simp only [handleCatch]
    rw [if_neg (by simpa using h1), if_neg (by simpa using h2),
      if_neg (by simpa using h3)]

/-- C6 witness: one code per prefix class, plus a plain transport
failure, instantiating the mapping. -/
theorem client_error_mapping_witness :
    createTypedError "AUTH_BAD_LOGIN" "m" =
      .authenticationError "AUTH_BAD_LOGIN" "m" ∧
    createTypedError "LINK_DOWN" "m" = .linkError "LINK_DOWN" "m" ∧
    createTypedError "MAGNET_INVALID_ID" "m" =
      .magnetError "MAGNET_INVALID_ID" "m" ∧
    createTypedError "PIN_EXPIRED" "m" = .allDebridError "PIN_EXPIRED" "m" ∧
    clientGet (.envelope "error" none (some ("MAGNET_INVALID_ID", "m"))) =
      .error (createTypedError "MAGNET_INVALID_ID" "m") ∧
    handleCatch (.transport (some 500) (some "boom")) =
      .networkError (msgOr (some "boom")) (some 500) :=
  ⟨(client_error_mapping "AUTH_BAD_LOGIN" "m" none none none).1 (by decide),
   (client_error_mapping "LINK_DOWN" "m" none none none).2.1
     (by decide) (by decide),
   (client_error_mapping "MAGNET_INVALID_ID" "m" none none none).2.2.1
     (by decide) (by decide) (by decide),
   (client_error_mapping "PIN_EXPIRED" "m" none none none).2.2.2.1
     (by decide) (by decide) (by decide),
   (client_error_mapping "MAGNET_INVALID_ID" "m" none none none).2.2.2.2.1,
   (client_error_mapping "x" "m" none (some "boom") (some 500)).2.2.2.2.2.2.2.2
     (by decide) (by decide) (by decide)⟩
